import Mathlib

/-!
Verification of the Breakout example (`src/examples/games/breakout.rs`).

The simulation core is embedded shallowly: `f32` coordinates become exact
rationals (the algorithms here only use ring operations and comparisons),
the Bevy ECS scheduling is modelled as an explicit list of chained systems,
and the per-tick collision loop becomes a fold over the list of colliders.
-/

namespace Breakout

/-- 2D vector with rational coordinates, standing in for Bevy's `Vec2`. -/
structure Vec2 where
  x : ℚ
  y : ℚ
deriving DecidableEq, Repr

-- Constants from the top of `breakout.rs` (values that the simulation core uses).
def PADDLE_SIZE : Vec2 := ⟨120, 20⟩
def PADDLE_SPEED : ℚ := 500
def PADDLE_PADDING : ℚ := 10
def BALL_DIAMETER : ℚ := 30
def WALL_THICKNESS : ℚ := 10
def LEFT_WALL : ℚ := -450
def RIGHT_WALL : ℚ := 450
def BOTTOM_WALL : ℚ := -300
def TOP_WALL : ℚ := 300
def BRICK_SIZE : Vec2 := ⟨100, 30⟩
def GAP_BETWEEN_BRICKS : ℚ := 5
def GAP_BETWEEN_BRICKS_AND_CEILING : ℚ := 20

/-- Rust's `f32::clamp(lo, hi)`: if below `lo` return `lo`, if above `hi`
return `hi`, otherwise the value itself (well-behaved when `lo ≤ hi`). -/
def clampQ (v lo hi : ℚ) : ℚ :=
  if v < lo then lo else if v > hi then hi else v

/-- Bevy's `BoundingCircle`: a center and a radius. -/
structure BoundingCircle where
  center : Vec2
  radius : ℚ
deriving DecidableEq, Repr

/-- Bevy's `Aabb2d`: an axis-aligned box stored as min/max corners. -/
structure Aabb2d where
  lo : Vec2
  hi : Vec2
deriving DecidableEq, Repr

/-- Modelled from the spec: `Aabb2d::new(center, half_size)` builds the box
from a center and half-extents ("an axis-aligned box (center, half-extents)");
the constructor itself lives in `bevy_math`, outside `src/`. -/
def Aabb2d.new (center half_size : Vec2) : Aabb2d :=
  ⟨⟨center.x - half_size.x, center.y - half_size.y⟩,
   ⟨center.x + half_size.x, center.y + half_size.y⟩⟩

/-- Modelled from the spec: "compute the closest point on the box to the
circle's center" — the componentwise clamp of the point into the box
(`Aabb2d::closest_point` lives in `bevy_math`, outside `src/`). -/
def Aabb2d.closest_point (b : Aabb2d) (p : Vec2) : Vec2 :=
  ⟨clampQ p.x b.lo.x b.hi.x, clampQ p.y b.lo.y b.hi.y⟩

/-- Rust's `f32::abs`, written out so that it evaluates by kernel reduction. -/
def absQ (q : ℚ) : ℚ := if q < 0 then -q else q

/-- Squared Euclidean distance between two points. -/
def distance_squared (a b : Vec2) : ℚ :=
  (a.x - b.x) * (a.x - b.x) + (a.y - b.y) * (a.y - b.y)

/-- Modelled from the spec: the "standard circle-vs-box distance check" —
the circle intersects the box iff the squared distance from the circle's
center to the closest point of the box is at most the squared radius
(`IntersectsVolume` for `BoundingCircle`/`Aabb2d` lives in `bevy_math`,
outside `src/`). -/
def BoundingCircle.intersects (c : BoundingCircle) (b : Aabb2d) : Bool :=
  distance_squared c.center (b.closest_point c.center) ≤ c.radius * c.radius

/-- The `Collision` enum of `breakout.rs`: which side of the box was struck. -/
inductive Collision where
  | Left
  | Right
  | Top
  | Bottom
deriving DecidableEq, Repr

/-- `ball_collision` from `breakout.rs`: `None` when the circle misses the
box; otherwise the struck side, classified by the dominant axis of the
offset from the box's closest point to the circle's center. -/
def ball_collision (ball : BoundingCircle) (bounding_box : Aabb2d) : Option Collision :=
  if !(ball.intersects bounding_box) then none
  else
    let closest := bounding_box.closest_point ball.center
    let offset : Vec2 := ⟨ball.center.x - closest.x, ball.center.y - closest.y⟩
    let side :=
      if absQ offset.x > absQ offset.y then
        if offset.x < 0 then Collision.Left else Collision.Right
      else if offset.y > 0 then Collision.Top
      else Collision.Bottom
    some side

example : ball_collision ⟨⟨0, 0⟩, 1⟩ (Aabb2d.new ⟨0, 0⟩ ⟨1, 1⟩) = some Collision.Bottom := by
  with_unfolding_all decide

example : ball_collision ⟨⟨-432, 50⟩, 15⟩ (Aabb2d.new ⟨-450, 0⟩ ⟨5, 305⟩) = some Collision.Right := by
  with_unfolding_all decide

/-- The per-collision velocity update of `check_for_collisions`
(`breakout.rs` lines 461–483): a component is negated exactly when the
`reflect_x`/`reflect_y` flag set by the `match` on the collision side is
true. -/
def reflect_velocity (collision : Collision) (ball_velocity : Vec2) : Vec2 :=
  let reflect_x : Bool :=
    match collision with
    | Collision.Left => decide (ball_velocity.x > 0)
    | Collision.Right => decide (ball_velocity.x < 0)
    | _ => false
  let reflect_y : Bool :=
    match collision with
    | Collision.Top => decide (ball_velocity.y < 0)
    | Collision.Bottom => decide (ball_velocity.y > 0)
    | _ => false
  ⟨if reflect_x then -ball_velocity.x else ball_velocity.x,
   if reflect_y then -ball_velocity.y else ball_velocity.y⟩

/-- The `Brick` marker component of `breakout.rs` (a unit struct). -/
structure Brick where
deriving DecidableEq, Repr

/-- One collider row of the `collider_query` in `check_for_collisions`:
its transform (translation and scale) and whether the entity is a brick
(`Option<&Brick>` in the source). -/
structure ColliderData where
  translation : Vec2
  scale : Vec2
  maybe_brick : Option Brick
deriving DecidableEq, Repr

/-- The bounding box built for a collider in `check_for_collisions`:
`Aabb2d::new(translation.truncate(), scale.truncate() / 2)`. -/
def collider_box (c : ColliderData) : Aabb2d :=
  Aabb2d.new c.translation ⟨c.scale.x / 2, c.scale.y / 2⟩

/-- The collision test run for one collider in `check_for_collisions`:
`ball_collision(BoundingCircle::new(ball_pos, BALL_DIAMETER / 2), box)`.
The ball's translation is read immutably, so it is fixed for the whole
loop. -/
def collider_collision (ball_pos : Vec2) (c : ColliderData) : Option Collision :=
  ball_collision ⟨ball_pos, BALL_DIAMETER / 2⟩ (collider_box c)

/-- One iteration of the collider loop in `check_for_collisions`, acting on
the (velocity, score) pair: on a collision, a brick adds 1 to the score
(and is despawned), and the velocity is reflected by the side rule. -/
def process_collider (ball_pos : Vec2) (st : Vec2 × ℕ) (c : ColliderData) : Vec2 × ℕ :=
  match collider_collision ball_pos c with
  | none => st
  | some collision =>
      (reflect_velocity collision st.1, if c.maybe_brick.isSome then st.2 + 1 else st.2)

/-- The whole collider loop of `check_for_collisions` for one tick:
a left fold of `process_collider` over the collider list. -/
def check_for_collisions_loop (ball_pos : Vec2) (colliders : List ColliderData)
    (velocity : Vec2) (score : ℕ) : Vec2 × ℕ :=
  colliders.foldl (process_collider ball_pos) (velocity, score)

/-- Number of bricks destroyed in one tick: the colliding colliders that
carry the `Brick` marker. -/
def bricks_destroyed (ball_pos : Vec2) (colliders : List ColliderData) : ℕ :=
  (colliders.filter
    (fun c => c.maybe_brick.isSome && (collider_collision ball_pos c).isSome)).length

/-- A whole run of ticks: each tick supplies the ball position and the
collider list seen by `check_for_collisions`; velocity and score are
threaded through. -/
def run_ticks (ticks : List (Vec2 × List ColliderData)) (velocity : Vec2) (score : ℕ) :
    Vec2 × ℕ :=
  ticks.foldl (fun st t => check_for_collisions_loop t.1 t.2 st.1 st.2) (velocity, score)

/-- The `Level` struct of `breakout.rs`: a grid of optional brick markers. -/
structure Level where
  brick_layout : List (List (Option Brick))
deriving DecidableEq, Repr

/-- `create_level_1` from `breakout.rs`. -/
def create_level_1 : Level :=
  ⟨[[some ⟨⟩, none, some ⟨⟩],
    [some ⟨⟩, some ⟨⟩, some ⟨⟩],
    [some ⟨⟩, some ⟨⟩, some ⟨⟩],
    [some ⟨⟩, some ⟨⟩, some ⟨⟩]]⟩

/-- `create_level_2` from `breakout.rs`. -/
def create_level_2 : Level :=
  ⟨[[some ⟨⟩, some ⟨⟩, some ⟨⟩],
    [some ⟨⟩, none, some ⟨⟩],
    [some ⟨⟩, some ⟨⟩, some ⟨⟩],
    [some ⟨⟩, some ⟨⟩, some ⟨⟩]]⟩

/-- The `GameState` resource: the ordered level sequence and the current
level index. -/
structure GameState where
  levels : List Level
  current_level : ℕ
deriving DecidableEq, Repr

/-- `GameState::default()`: levels 1 and 2, starting at index 0. -/
def GameState.default : GameState :=
  ⟨[create_level_1, create_level_2], 0⟩

/-- `next_level` from `breakout.rs`: advance the index when a next level
exists, otherwise only print a message (no state change). -/
def next_level (game_state : GameState) : GameState :=
  if game_state.current_level + 1 < game_state.levels.length then
    { game_state with current_level := game_state.current_level + 1 }
  else
    game_state

/-- Number of bricks a level spawns: the `Some` cells of its grid. -/
def brick_count (level : Level) : ℕ :=
  (level.brick_layout.map (fun row => (row.filter Option.isSome).length)).sum

/-- The brick translation computed inside `load_level`'s nested loops:
`total_width` centers the row horizontally (using row 0's length as
`bricks_per_row`), `start_y` sits a fixed margin below the top wall, and
each cell is offset by its row/column index times brick size plus gap. -/
def brick_position (bricks_per_row row_idx brick_idx : ℕ) : Vec2 :=
  let total_width : ℚ :=
    (bricks_per_row : ℚ) * BRICK_SIZE.x + ((bricks_per_row : ℚ) - 1) * GAP_BETWEEN_BRICKS
  let start_x : ℚ := -total_width / 2 + BRICK_SIZE.x / 2
  let start_y : ℚ := TOP_WALL - GAP_BETWEEN_BRICKS_AND_CEILING - BRICK_SIZE.y / 2
  ⟨start_x + (brick_idx : ℚ) * (BRICK_SIZE.x + GAP_BETWEEN_BRICKS),
   start_y - (row_idx : ℚ) * (BRICK_SIZE.y + GAP_BETWEEN_BRICKS)⟩

/-- `load_level` from `breakout.rs`, returning the translations of the
spawned brick entities. The function starts by indexing
`level.brick_layout[0]` (for `bricks_per_row`), which panics on an empty
layout; that fallible indexing is modelled by returning `none` exactly in
that case. A brick is spawned for each `Some` cell, at
`brick_position`. -/
def load_level (level : Level) : Option (List Vec2) :=
  match level.brick_layout with
  | [] => none
  | row0 :: _ =>
    some ((level.brick_layout.enum.map (fun p =>
      p.2.enum.filterMap (fun q =>
        if q.2.isSome then some (brick_position row0.length p.1 q.1) else none))).flatten)

/-- `all_bricks_are_cleared` from `breakout.rs`: the brick query is empty.
Here the brick population is abstracted to its size. -/
def all_bricks_are_cleared (bricks : ℕ) : Bool :=
  bricks = 0

/-- The level-clear tail of `check_for_collisions` (`breakout.rs` lines
487–496): when no bricks remain and a next level exists, advance the level
and repopulate the bricks by loading the new level; otherwise (either
bricks remain, or the last level was cleared) change nothing. The brick
population is abstracted to its size, which `load_level` repopulates to
the new level's brick count. -/
def level_clear_check (game_state : GameState) (bricks : ℕ) : GameState × ℕ :=
  if all_bricks_are_cleared bricks then
    if game_state.current_level + 1 < game_state.levels.length then
      let gs2 := next_level game_state
      (gs2, brick_count (gs2.levels.getD gs2.current_level ⟨[]⟩))
    else
      (game_state, bricks)
  else
    (game_state, bricks)

/-- The systems of the `FixedUpdate` schedule, for the ordering claim. -/
inductive SystemName where
  | apply_velocity
  | move_paddle
  | check_for_collisions
  | play_collision_sound
deriving DecidableEq, Repr

/-- The `FixedUpdate` chain registered in `main` (`breakout.rs` lines
132–142): `.chain()` runs the tuple's systems strictly sequentially in
tuple order, so the list order is the per-tick execution order. -/
def fixed_update_chain : List SystemName :=
  [SystemName.apply_velocity, SystemName.move_paddle,
   SystemName.check_for_collisions, SystemName.play_collision_sound]

/-- Position of a system in the per-tick execution order. -/
def run_position (s : SystemName) : ℕ :=
  fixed_update_chain.indexOf s

/-- The paddle clamp bounds computed in `move_paddle`. -/
def left_bound : ℚ := LEFT_WALL + WALL_THICKNESS / 2 + PADDLE_SIZE.x / 2 + PADDLE_PADDING

/-- The paddle clamp upper bound computed in `move_paddle`. -/
def right_bound : ℚ := RIGHT_WALL - WALL_THICKNESS / 2 - PADDLE_SIZE.x / 2 - PADDLE_PADDING

/-- `move_paddle` from `breakout.rs`, as a function of the two arrow-key
states, the elapsed seconds, and the paddle's current x translation:
direction accumulates -1 for left and +1 for right, the displacement is
`direction * PADDLE_SPEED * delta`, and the result is clamped to
`[left_bound, right_bound]`. -/
def move_paddle (left_pressed right_pressed : Bool) (delta_seconds x : ℚ) : ℚ :=
  let direction : ℚ := (if left_pressed then -1 else 0) + (if right_pressed then 1 else 0)
  let new_paddle_position := x + direction * PADDLE_SPEED * delta_seconds
  clampQ new_paddle_position left_bound right_bound

/-! ## General lemmas about the embedded operations -/

/-- A clamp with ordered bounds lands inside the bounds. -/
theorem clampQ_mem (v lo hi : ℚ) (h : lo ≤ hi) : lo ≤ clampQ v lo hi ∧ clampQ v lo hi ≤ hi := by
  unfold clampQ
  split_ifs <;> constructor <;> linarith

/-- `absQ` is invariant under negation. -/
theorem absQ_neg (q : ℚ) : absQ (-q) = absQ q := by
  unfold absQ
  split_ifs <;> linarith

/-! ## Claim theorems -/

/-- C8: a circle/box pair that fails the circle-vs-box intersection test
makes `ball_collision` return `none`. -/
theorem ball_collision_no_overlap (ball : BoundingCircle) (bounding_box : Aabb2d)
    (h : ball.intersects bounding_box = false) :
    ball_collision ball bounding_box = none := by
  simp [ball_collision, h]

/-- C8 witness: a circle far from the box does not intersect it, and
`ball_collision` reports no collision. -/
theorem ball_collision_no_overlap_witness :
    BoundingCircle.intersects ⟨⟨100, 100⟩, 15⟩ (Aabb2d.new ⟨0, 0⟩ ⟨1, 1⟩) = false ∧
    ball_collision ⟨⟨100, 100⟩, 15⟩ (Aabb2d.new ⟨0, 0⟩ ⟨1, 1⟩) = none :=
  ⟨by with_unfolding_all decide,
   ball_collision_no_overlap ⟨⟨100, 100⟩, 15⟩ (Aabb2d.new ⟨0, 0⟩ ⟨1, 1⟩)
     (by with_unfolding_all decide)⟩

/-- C1 counterexample: the circle centered at the box center intersects the
box, the offset from the closest point to the center is exactly (0, 0) —
so the vertical-dominant case applies with `offset.y = 0` — yet
`ball_collision` returns `Bottom`, not `Top` as the claim requires for a
zero offset. -/
theorem ball_collision_zero_offset_counterexample :
    BoundingCircle.intersects ⟨⟨0, 0⟩, 1⟩ (Aabb2d.new ⟨0, 0⟩ ⟨1, 1⟩) = true ∧
    (Aabb2d.new ⟨0, 0⟩ ⟨1, 1⟩).closest_point ⟨0, 0⟩ = ⟨0, 0⟩ ∧
    ball_collision ⟨⟨0, 0⟩, 1⟩ (Aabb2d.new ⟨0, 0⟩ ⟨1, 1⟩) = some Collision.Bottom ∧
    ball_collision ⟨⟨0, 0⟩, 1⟩ (Aabb2d.new ⟨0, 0⟩ ⟨1, 1⟩) ≠ some Collision.Top := by
  with_unfolding_all decide

/-- C1 (amended): for every intersecting circle/box pair, with `(ox, oy)`
the offset from the box's closest point to the circle's center,
`ball_collision` classifies the side by dominant axis: if `|ox| > |oy|`
the sign of `ox` selects Left/Right; otherwise a strictly positive `oy`
yields `Top` and a zero-or-negative `oy` yields `Bottom` (in particular
`oy = 0` yields `Bottom`). -/
theorem ball_collision_classification (ball : BoundingCircle) (bounding_box : Aabb2d)
    (h : ball.intersects bounding_box = true) (ox oy : ℚ)
    (hox : ox = ball.center.x - (bounding_box.closest_point ball.center).x)
    (hoy : oy = ball.center.y - (bounding_box.closest_point ball.center).y) :
    (absQ ox > absQ oy →
      ball_collision ball bounding_box =
        some (if ox < 0 then Collision.Left else Collision.Right)) ∧
    (absQ ox ≤ absQ oy → 0 < oy →
      ball_collision ball bounding_box = some Collision.Top) ∧
    (absQ ox ≤ absQ oy → oy ≤ 0 →
      ball_collision ball bounding_box = some Collision.Bottom) := by
  subst hox hoy
  have hb : ball_collision ball bounding_box =
      some (if absQ (ball.center.x - (bounding_box.closest_point ball.center).x) >
               absQ (ball.center.y - (bounding_box.closest_point ball.center).y) then
              if ball.center.x - (bounding_box.closest_point ball.center).x < 0 then
                Collision.Left
              else Collision.Right
            else if ball.center.y - (bounding_box.closest_point ball.center).y > 0 then
              Collision.Top
            else Collision.Bottom) := by
    simp [ball_collision, h]
  refine ⟨fun hgt => ?_, fun hle hpos => ?_, fun hle hneg => ?_⟩
  · rw [hb, if_pos hgt]
  · rw [hb, if_neg (not_lt.mpr hle), if_pos hpos]
  · rw [hb, if_neg (not_lt.mpr hle), if_neg (not_lt.mpr hneg)]

/-- C1 witness: a ball overlapping the left wall from the playfield side
(offset (13, 0) from the closest point) is classified `Right` by the
horizontal-dominant rule. -/
theorem ball_collision_classification_witness :
    BoundingCircle.intersects ⟨⟨-432, 50⟩, 15⟩ (Aabb2d.new ⟨-450, 0⟩ ⟨5, 305⟩) = true ∧
    ball_collision ⟨⟨-432, 50⟩, 15⟩ (Aabb2d.new ⟨-450, 0⟩ ⟨5, 305⟩) = some Collision.Right := by
  refine ⟨by with_unfolding_all decide, ?_⟩
  have h := (ball_collision_classification ⟨⟨-432, 50⟩, 15⟩ (Aabb2d.new ⟨-450, 0⟩ ⟨5, 305⟩)
    (by with_unfolding_all decide) 13 0
    (by with_unfolding_all decide) (by with_unfolding_all decide)).1
    (by with_unfolding_all decide)
  rw [if_neg (by norm_num : ¬ (13 : ℚ) < 0)] at h
  exact h

/-- C4: a velocity component is negated exactly when it points into the
obstacle (Left hit and moving right, Right hit and moving left, Top hit
and moving down, Bottom hit and moving up); otherwise it is untouched.
Concretely, a ball with velocity (-1, -1) overlapping the left wall
(translation (-450, 0), scale (10, 610)) is classified `Right` and leaves
with velocity (1, -1): x reflected, y unchanged. -/
theorem reflection_policy :
    (∀ (c : Collision) (v : Vec2),
      (reflect_velocity c v).x =
        (if (c = Collision.Left ∧ 0 < v.x) ∨ (c = Collision.Right ∧ v.x < 0) then -v.x
         else v.x) ∧
      (reflect_velocity c v).y =
        (if (c = Collision.Top ∧ v.y < 0) ∨ (c = Collision.Bottom ∧ 0 < v.y) then -v.y
         else v.y)) ∧
    collider_collision ⟨-432, 50⟩ ⟨⟨-450, 0⟩, ⟨10, 610⟩, none⟩ = some Collision.Right ∧
    reflect_velocity Collision.Right ⟨-1, -1⟩ = ⟨1, -1⟩ := by
  refine ⟨fun c v => ?_, by with_unfolding_all decide, by with_unfolding_all decide⟩
  cases c <;> simp [reflect_velocity]

/-- C9: the reflection step only negates components, so it preserves the
absolute value of each velocity component; consequently the whole collider
loop of `check_for_collisions` leaves `|velocity.x|` and `|velocity.y|`
unchanged. -/
theorem reflection_preserves_speed :
    (∀ (c : Collision) (v : Vec2),
      absQ (reflect_velocity c v).x = absQ v.x ∧
      absQ (reflect_velocity c v).y = absQ v.y) ∧
    (∀ (ball_pos : Vec2) (colliders : List ColliderData) (velocity : Vec2) (score : ℕ),
      absQ (check_for_collisions_loop ball_pos colliders velocity score).1.x = absQ velocity.x ∧
      absQ (check_for_collisions_loop ball_pos colliders velocity score).1.y = absQ velocity.y) := by
  have hstep : ∀ (c : Collision) (v : Vec2),
      absQ (reflect_velocity c v).x = absQ v.x ∧ absQ (reflect_velocity c v).y = absQ v.y := by
    intro c v
    cases c <;> simp [reflect_velocity] <;> split_ifs <;> simp [absQ_neg]
  refine ⟨hstep, fun ball_pos colliders => ?_⟩
  induction colliders with
  | nil => intro v s; simp [check_for_collisions_loop]
  | cons c cs ih =>
    intro v s
    have hfold : check_for_collisions_loop ball_pos (c :: cs) v s =
        check_for_collisions_loop ball_pos cs (process_collider ball_pos (v, s) c).1
          (process_collider ball_pos (v, s) c).2 := by
      simp [check_for_collisions_loop]
    rw [hfold]
    have hv : absQ (process_collider ball_pos (v, s) c).1.x = absQ v.x ∧
        absQ (process_collider ball_pos (v, s) c).1.y = absQ v.y := by
      unfold process_collider
      cases collider_collision ball_pos c with
      | none => exact ⟨rfl, rfl⟩
      | some col => exact hstep col v
    rcases ih (process_collider ball_pos (v, s) c).1 (process_collider ball_pos (v, s) c).2
      with ⟨ih1, ih2⟩
    exact ⟨by rw [ih1, hv.1], by rw [ih2, hv.2]⟩

/-- C2 counterexample: in the `FixedUpdate` chain of `main`, paddle
movement does not run before velocity integration — `apply_velocity` is
chained first. -/
theorem fixed_update_order_counterexample :
    ¬ run_position SystemName.move_paddle < run_position SystemName.apply_velocity := by
  decide

/-- C2 (amended): within every fixed tick the chained systems run strictly
sequentially in the order `apply_velocity`, `move_paddle`,
`check_for_collisions` (integrate → paddle → collide), so collision
detection still sees the tick's updated ball position and paddle
position. -/
theorem fixed_update_order :
    run_position SystemName.apply_velocity < run_position SystemName.move_paddle ∧
    run_position SystemName.move_paddle < run_position SystemName.check_for_collisions ∧
    run_position SystemName.apply_velocity < run_position SystemName.check_for_collisions := by
  decide

/-- C5: for every input state, non-negative elapsed time, and starting x
within `[left_bound, right_bound]`, the paddle x after `move_paddle` stays
within `[left_bound, right_bound]`. -/
theorem move_paddle_in_bounds (left_pressed right_pressed : Bool) (delta_seconds x : ℚ)
    (hdt : 0 ≤ delta_seconds) (hx1 : left_bound ≤ x) (hx2 : x ≤ right_bound) :
    left_bound ≤ move_paddle left_pressed right_pressed delta_seconds x ∧
    move_paddle left_pressed right_pressed delta_seconds x ≤ right_bound := by
  have hlr : left_bound ≤ right_bound := by with_unfolding_all decide
  exact clampQ_mem _ _ _ hlr

/-- C5 witness: from x = 0 with the left key held for one second, the
paddle lands back inside the bounds. -/
theorem move_paddle_in_bounds_witness :
    (0 : ℚ) ≤ 1 ∧ left_bound ≤ 0 ∧ (0 : ℚ) ≤ right_bound ∧
    left_bound ≤ move_paddle true false 1 0 ∧ move_paddle true false 1 0 ≤ right_bound := by
  refine ⟨by norm_num, by with_unfolding_all decide, by with_unfolding_all decide, ?_, ?_⟩
  · exact (move_paddle_in_bounds true false 1 0 (by norm_num)
      (by with_unfolding_all decide) (by with_unfolding_all decide)).1
  · exact (move_paddle_in_bounds true false 1 0 (by norm_num)
      (by with_unfolding_all decide) (by with_unfolding_all decide)).2

/-- C6: `next_level` advances `current_level` by exactly one (and keeps the
level list) when a next level exists, and otherwise is a no-op on the
whole state. -/
theorem next_level_spec (game_state : GameState) :
    (game_state.current_level + 1 < game_state.levels.length →
      next_level game_state =
        { game_state with current_level := game_state.current_level + 1 }) ∧
    (game_state.levels.length ≤ game_state.current_level + 1 →
      next_level game_state = game_state) := by
  refine ⟨fun h => ?_, fun h => ?_⟩
  · simp only [next_level]
    rw [if_pos h]
  · simp only [next_level]
    rw [if_neg (Nat.not_lt.mpr h)]

/-- C6 witness: from the default state (index 0 of 2 levels) `next_level`
advances to index 1, and from index 1 it is a no-op. -/
theorem next_level_spec_witness :
    GameState.default.current_level + 1 < GameState.default.levels.length ∧
    next_level GameState.default =
      { GameState.default with current_level := GameState.default.current_level + 1 } ∧
    GameState.default.levels.length ≤ 1 + 1 ∧
    next_level { GameState.default with current_level := 1 } =
      { GameState.default with current_level := 1 } :=
  ⟨by decide, (next_level_spec GameState.default).1 (by decide), by decide,
   (next_level_spec { GameState.default with current_level := 1 }).2 (by decide)⟩

/-- The collider loop adds one to the score per colliding brick. -/
theorem check_loop_score (ball_pos : Vec2) :
    ∀ (colliders : List ColliderData) (velocity : Vec2) (score : ℕ),
      (check_for_collisions_loop ball_pos colliders velocity score).2 =
        score + bricks_destroyed ball_pos colliders := by
  intro colliders
  induction colliders with
  | nil => intro v s; simp [check_for_collisions_loop, bricks_destroyed]
  | cons c cs ih =>
    intro v s
    have hfold : check_for_collisions_loop ball_pos (c :: cs) v s =
        check_for_collisions_loop ball_pos cs (process_collider ball_pos (v, s) c).1
          (process_collider ball_pos (v, s) c).2 := by
      simp [check_for_collisions_loop]
    rw [hfold, ih]
    unfold process_collider bricks_destroyed
    cases h : collider_collision ball_pos c with
    | none => simp [List.filter_cons, h, bricks_destroyed]
    | some col =>
      cases hb : c.maybe_brick.isSome <;>
        simp [List.filter_cons, h, hb, bricks_destroyed] <;> omega

/-- `run_ticks` splits over list append. -/
theorem run_ticks_append (ticks1 ticks2 : List (Vec2 × List ColliderData))
    (velocity : Vec2) (score : ℕ) :
    run_ticks (ticks1 ++ ticks2) velocity score =
      run_ticks ticks2 (run_ticks ticks1 velocity score).1
        (run_ticks ticks1 velocity score).2 := by
  simp [run_ticks, List.foldl_append]

/-- C7: the score is a natural-number counter; one tick of the collider
loop adds exactly the number of bricks destroyed in that tick, a whole run
of ticks adds the total number of bricks destroyed, and the score never
decreases along any run (any extension of a run only grows the score). -/
theorem score_accounting :
    (∀ (ball_pos : Vec2) (colliders : List ColliderData) (velocity : Vec2) (score : ℕ),
      (check_for_collisions_loop ball_pos colliders velocity score).2 =
        score + bricks_destroyed ball_pos colliders) ∧
    (∀ (ticks : List (Vec2 × List ColliderData)) (velocity : Vec2) (score : ℕ),
      (run_ticks ticks velocity score).2 =
        score + (ticks.map (fun t => bricks_destroyed t.1 t.2)).sum) ∧
    (∀ (ticks1 ticks2 : List (Vec2 × List ColliderData)) (velocity : Vec2) (score : ℕ),
      (run_ticks ticks1 velocity score).2 ≤ (run_ticks (ticks1 ++ ticks2) velocity score).2) := by
  have hrun : ∀ (ticks : List (Vec2 × List ColliderData)) (velocity : Vec2) (score : ℕ),
      (run_ticks ticks velocity score).2 =
        score + (ticks.map (fun t => bricks_destroyed t.1 t.2)).sum := by
    intro ticks
    induction ticks with
    | nil => intro v s; simp [run_ticks]
    | cons t ts ih =>
      intro v s
      have hfold : run_ticks (t :: ts) v s =
          run_ticks ts (check_for_collisions_loop t.1 t.2 v s).1
            (check_for_collisions_loop t.1 t.2 v s).2 := by
        simp [run_ticks]
      rw [hfold, ih, check_loop_score]
      simp [Nat.add_assoc]
  refine ⟨check_loop_score, hrun, fun ticks1 ticks2 v s => ?_⟩
  rw [run_ticks_append]
  rw [hrun ticks2]
  rw [hrun ticks1]
  omega

/-- C3: while bricks remain the level-clear check changes nothing; a clear
with a next level available advances the level index by exactly one,
keeps the level list, and repopulates the bricks with the new level's
brick count; a clear of the last level changes nothing; and with the
game's actual level list a transition repopulates a positive number of
bricks, so the immediately following check is a no-op — the same clear
never triggers a second transition. -/
theorem level_clear_transition (game_state : GameState) (bricks : ℕ) :
    (bricks ≠ 0 → level_clear_check game_state bricks = (game_state, bricks)) ∧
    (bricks = 0 → game_state.current_level + 1 < game_state.levels.length →
      (level_clear_check game_state bricks).1.current_level = game_state.current_level + 1 ∧
      (level_clear_check game_state bricks).1.levels = game_state.levels ∧
      (level_clear_check game_state bricks).2 =
        brick_count (game_state.levels.getD (game_state.current_level + 1) ⟨[]⟩)) ∧
    (bricks = 0 → game_state.levels.length ≤ game_state.current_level + 1 →
      level_clear_check game_state bricks = (game_state, bricks)) ∧
    (game_state.levels = GameState.default.levels → bricks = 0 →
      game_state.current_level + 1 < game_state.levels.length →
      0 < (level_clear_check game_state bricks).2 ∧
      level_clear_check (level_clear_check game_state bricks).1
          (level_clear_check game_state bricks).2 =
        level_clear_check game_state bricks) := by
  have hstay : ∀ (gs : GameState) (b : ℕ), b ≠ 0 → level_clear_check gs b = (gs, b) := by
    intro gs b hb
    simp [level_clear_check, all_bricks_are_cleared, hb]
  have hadv : ∀ gs : GameState, gs.current_level + 1 < gs.levels.length →
      level_clear_check gs 0 =
        ({ gs with current_level := gs.current_level + 1 },
         brick_count (gs.levels.getD (gs.current_level + 1) ⟨[]⟩)) := by
    intro gs hlt
    simp only [level_clear_check, all_bricks_are_cleared]
    rw [if_pos (by simp), if_pos hlt]
    have hnl : next_level gs = { gs with current_level := gs.current_level + 1 } := by
      simp only [next_level]
      rw [if_pos hlt]
    rw [hnl]
  refine ⟨hstay game_state bricks, fun hb hlt => ?_, fun hb hge => ?_, fun hlv hb hlt => ?_⟩
  · subst hb
    rw [hadv game_state hlt]
    exact ⟨rfl, rfl, rfl⟩
  · subst hb
    simp only [level_clear_check, all_bricks_are_cleared]
    rw [if_pos (by simp), if_neg (Nat.not_lt.mpr hge)]
  · subst hb
    have hcl : game_state.current_level = 0 := by
      rw [hlv] at hlt
      simp [GameState.default] at hlt
      omega
    rw [hadv game_state hlt, hcl, hlv]
    have hcount : brick_count (GameState.default.levels.getD (0 + 1) ⟨[]⟩) = 11 := by
      decide
    rw [hcount]
    exact ⟨by norm_num, hstay _ 11 (by norm_num)⟩

/-- C3 witness: bricks remaining is a no-op; a clear of level 0 advances
to level 1; a clear at the last level is a no-op. -/
theorem level_clear_transition_witness :
    level_clear_check GameState.default 5 = (GameState.default, 5) ∧
    (level_clear_check GameState.default 0).1.current_level =
      GameState.default.current_level + 1 ∧
    level_clear_check { GameState.default with current_level := 1 } 0 =
      ({ GameState.default with current_level := 1 }, 0) :=
  ⟨(level_clear_transition GameState.default 5).1 (by decide),
   ((level_clear_transition GameState.default 0).2.1 rfl (by decide)).1,
   (level_clear_transition { GameState.default with current_level := 1 } 0).2.2.1 rfl
     (by decide)⟩

/-- A row's enumerated cells filtered through a `Some`-preserving map
contribute exactly one element per `Some` cell, whatever the enumeration
start index. -/
theorem length_filterMap_enumFrom (f : ℕ → Option Brick → Option Vec2)
    (hf : ∀ n b, (f n b).isSome = b.isSome) :
    ∀ (row : List (Option Brick)) (n : ℕ),
      ((row.enumFrom n).filterMap (fun q => f q.1 q.2)).length =
        (row.filter Option.isSome).length := by
  intro row
  induction row with
  | nil => intro n; simp
  | cons b bs ih =>
    intro n
    simp only [List.enumFrom, List.filterMap_cons, List.filter_cons]
    cases hq : f n b with
    | none =>
      have hb : b.isSome = false := by rw [← hf n b, hq]; rfl
      simp [hb, ih (n + 1)]
    | some v =>
      have hb : b.isSome = true := by rw [← hf n b, hq]; rfl
      simp [hb, ih (n + 1)]

/-- Summing the per-row spawn counts over the enumerated rows gives the
total number of `Some` cells, whatever the enumeration start index. -/
theorem sum_rows_count (g : ℕ → ℕ → Vec2) :
    ∀ (rows : List (List (Option Brick))) (n : ℕ),
      ((rows.enumFrom n).map (fun p =>
          (p.2.enum.filterMap (fun q =>
            if q.2.isSome then some (g p.1 q.1) else none)).length)).sum =
        (rows.map (fun row => (row.filter Option.isSome).length)).sum := by
  intro rows
  induction rows with
  | nil => intro n; simp
  | cons r rs ih =>
    intro n
    simp only [List.enumFrom, List.map_cons, List.sum_cons, ih (n + 1)]
    congr 1
    have h := length_filterMap_enumFrom (fun k b => if b.isSome then some (g n k) else none)
      (by intro m b; cases b <;> simp) r 0
    simpa [List.enum] using h

/-- C10: `load_level` indexes row 0 of the layout, so the empty layout is
the one failing input (modelled by `none`); for every level with a
non-empty layout the indexing is in-bounds, loading succeeds, and exactly
one brick entity is spawned per `Some` cell of the grid. -/
theorem load_level_spawn_count (level : Level) (h : level.brick_layout ≠ []) :
    Option.map List.length (load_level level) = some (brick_count level) := by
  cases hl : level.brick_layout with
  | nil => exact absurd hl h
  | cons r rs =>
    simp only [load_level, hl, Option.map_some']
    have hsum := sum_rows_count (brick_position r.length) (r :: rs) 0
    simp only [brick_count, hl]
    rw [List.length_flatten, List.map_map]
    simpa [List.enum, Function.comp] using hsum

/-- C10 witness: level 1 has a non-empty layout, and loading it spawns
exactly its 11 `Some` cells. -/
theorem load_level_spawn_count_witness :
    create_level_1.brick_layout ≠ [] ∧
    Option.map List.length (load_level create_level_1) = some (brick_count create_level_1) :=
  ⟨by decide, load_level_spawn_count create_level_1 (by decide)⟩

end Breakout
